import Mathlib

/-!
Verification of the resvg image-preprocessing and lighting-filter subsystem.

The `usvg` namespace embeds `src/usvg/src/image.rs`; floating-point `f32`
arithmetic in the premultiplication loop is embedded exactly over `ℚ`
(every intermediate value there is a small rational and the final cast
truncates, so the rational semantics coincides with the source's).

The `usvgr` namespace embeds `src/usvgr/src/filter/lighting.rs`; `f64`
values are idealized as real numbers because the light-source transform
uses `sqrt`.
-/

namespace usvg

/-- Rust `as u8` cast of a nonnegative-or-negative float value: saturating,
truncating toward zero (`image.rs` line 38, `(... + 0.5) as u8`). -/
def castF32ToU8 (q : ℚ) : ℕ :=
if q < 0 then 0 else min 255 (Int.toNat ⌊q⌋)

/-- One channel of the premultiplication loop body (`image.rs` lines 36-40):
`alpha = a as f32 / 255.0`; `(c as f32 * alpha + 0.5) as u8`. -/
def premultChannel (c a : ℕ) : ℕ :=
castF32ToU8 ((c : ℚ) * ((a : ℚ) / 255) + 1 / 2)

/-- Decoded image data (`PreloadedImageData` struct, `image.rs` lines 16-23). -/
structure PreloadedImageData where
  data : List ℕ
  width : ℕ
  height : ℕ
  deriving DecidableEq

/-- The premultiplication loop of `PreloadedImageData::new` (`image.rs`
lines 30-42): processes the buffer in 4-byte steps; a trailing chunk of
fewer than 4 bytes makes the indexing `rgba_data[i + 1]` (etc.) panic,
which is embedded as `none`. -/
def premultiplyData : List ℕ → Option (List ℕ)
  | [] => some []
  | r :: g :: b :: a :: rest =>
    (premultiplyData rest).map
      (fun t => premultChannel r a :: premultChannel g a :: premultChannel b a :: a :: t)
  | _ :: _ => none

/-- `PreloadedImageData::new` (`image.rs` lines 27-49): premultiplies the
buffer and stores the given `width` and `height` unchecked. -/
def PreloadedImageData.new (width height : ℕ) (rgba_data : List ℕ) :
    Option PreloadedImageData :=
(premultiplyData rgba_data).map (fun d => PreloadedImageData.mk d width height)

/-- Modelled from the spec: geometry rectangle whose construction validates a
finite, positive size (spec section 3 and 4.1; `Rect::new` lives in the
`geom` module, outside the provided sources). Over `ℚ` every value is
finite, so only positivity remains to check. -/
structure Rect where
  x : ℚ
  y : ℚ
  width : ℚ
  height : ℚ
  deriving DecidableEq

/-- Modelled from the spec: `Rect::new` returns no value on a non-finite or
non-positive size (spec section 4.1). -/
def Rect.new (x y w h : ℚ) : Option Rect :=
if 0 < w ∧ 0 < h then some (Rect.mk x y w h) else none

/-- Element visibility (`visibility` attribute values). -/
inductive Visibility
  | visible
  | hidden
  | collapse
  deriving DecidableEq

/-- Rendering mode (`image-rendering` attribute values). -/
inductive ImageRendering
  | optimizeQuality
  | optimizeSpeed
  deriving DecidableEq

/-- Modelled from the spec: aspect-fit policy of `preserveAspectRatio`
(spec section 3); only its default matters to the claims. -/
inductive AspectKind
  | defaultPolicy
  | custom (n : ℕ)
  deriving DecidableEq

/-- Modelled from the spec: affine transform of the `geom` module. -/
structure Transform where
  a : ℚ
  b : ℚ
  c : ℚ
  d : ℚ
  e : ℚ
  f : ℚ
  deriving DecidableEq

/-- `Transform::default()`: the identity transform. -/
def defaultTransform : Transform :=
Transform.mk 1 0 0 1 0 0

/-- View box: rectangle plus fit policy (`image.rs` lines 103-106). -/
structure ViewBox where
  rect : Rect
  aspect : AspectKind
  deriving DecidableEq

/-- A raster image element (`Image` struct, `image.rs` lines 56-83). -/
structure Image where
  id : String
  transform : Transform
  visibility : Visibility
  view_box : ViewBox
  rendering_mode : ImageRendering
  data : PreloadedImageData
  deriving DecidableEq

/-- Output tree node kinds reachable from `image::convert`. -/
inductive NodeKind
  | image (image : Image)
  deriving DecidableEq

/-- Conversion options (`OptionsRef`): the document-wide rendering default and
the reference-string-keyed cache of preloaded images. -/
structure OptionsRef where
  image_rendering : ImageRendering
  image_data : List (String × PreloadedImageData)

/-- Converter state (`converter::State`), restricted to what `convert` reads. -/
structure State where
  opt : OptionsRef

/-- Modelled from the spec: the typed attribute view of an `svgtree::Node`
holding an image element (external attribute resolver, spec section 2);
each field is the result of the corresponding typed lookup. -/
structure INode where
  elementId : String
  visibility : Option Visibility
  imageRendering : Option ImageRendering
  x : Option ℚ
  y : Option ℚ
  width : Option ℚ
  height : Option ℚ
  aspect : Option AspectKind
  href : Option String

/-- `get_href_data` (`image.rs` lines 126-128): cache lookup by reference. -/
def get_href_data (href : String) (opt : OptionsRef) : Option PreloadedImageData :=
(opt.image_data.find? (fun p => p.1 = href)).map Prod.snd

/-- `image::convert` (`image.rs` lines 85-124). The parent's children list is
passed and returned explicitly in place of the `&mut Node` parameter; the
`Option<()>` result mirrors the source's early returns. -/
def convert (node : INode) (state : State) (parent : List NodeKind) :
    List NodeKind × Option Unit :=
  let visibility := node.visibility.getD Visibility.visible
  let rendering_mode := node.imageRendering.getD state.opt.image_rendering
  match Rect.new (node.x.getD 0) (node.y.getD 0) (node.width.getD 0) (node.height.getD 0) with
  | none => (parent, none)
  | some rect =>
    let view_box : ViewBox := ViewBox.mk rect (node.aspect.getD AspectKind.defaultPolicy)
    match node.href with
    | none => (parent, none)
    | some href =>
      match get_href_data href state.opt with
      | none => (parent, none)
      | some data =>
        (parent ++ [NodeKind.image (Image.mk node.elementId defaultTransform visibility
          view_box rendering_mode data)], some ())

end usvg

namespace usvgr

/-- A parsed color with alpha (`svgrtypes::Color`). -/
structure SvgColor where
  red : ℕ
  green : ℕ
  blue : ℕ
  alpha : ℕ
  deriving DecidableEq

/-- The alpha-free color stored in the tree (`crate::Color`). -/
structure Color where
  red : ℕ
  green : ℕ
  blue : ℕ
  deriving DecidableEq

/-- `SvgColorExt::split_alpha`: splits a parsed color into its alpha-free color
and its alpha component. -/
def SvgColor.split_alpha (c : SvgColor) : Color × ℕ :=
(Color.mk c.red c.green c.blue, c.alpha)

/-- `svgrtypes::Color::black()`. -/
def SvgColor.black : SvgColor :=
SvgColor.mk 0 0 0 255

/-- `Color::white()`. -/
def Color.white : Color :=
Color.mk 255 255 255

/-- Modelled from the spec: the forms of a parsed `lighting-color` attribute
value relevant to `convert_lighting_color` — the inheritance token, an
explicit color, or any other form of `svgtree::AttributeValue`. -/
inductive AttributeValue
  | currentColor
  | color (c : SvgColor)
  | other
  deriving DecidableEq

/-- Attribute identifiers read by the lighting converter (`svgtree::AId`). -/
inductive AId
  | surfaceScale
  | diffuseConstant
  | specularConstant
  | specularExponent
  | azimuth
  | elevation
  | x
  | y
  | z
  | pointsAtX
  | pointsAtY
  | pointsAtZ
  | limitingConeAngle
  | inputAttr
  deriving DecidableEq

/-- Element tags matched by `convert_light_source` (`svgtree::EId`); every tag
other than the three light-source ones behaves alike there. -/
inductive EId
  | feDistantLight
  | fePointLight
  | feSpotLight
  | feOther
  deriving DecidableEq

/-- Modelled from the spec: the typed attribute view of a light-source child
node (external attribute resolver, spec section 2). -/
structure ChildNode where
  tag : Option EId
  attr : AId → Option ℝ

/-- Modelled from the spec: the typed attribute view of a lighting filter
primitive node (external attribute resolver, spec section 2). `attr` is the
plain numeric lookup, `lightingColor` the polymorphic `lighting-color`
lookup, `colorAttr` the inherited `color` lookup, `inAttr` the `in`
reference string, `children` the direct children. -/
structure LNode where
  attr : AId → Option ℝ
  lightingColor : Option AttributeValue
  colorAttr : Option SvgColor
  inAttr : Option String
  children : List ChildNode

/-- `convert_lighting_color` (`lighting.rs` lines 131-144). -/
def convert_lighting_color (node : LNode) : Color :=
  match node.lightingColor with
  | some AttributeValue.currentColor =>
    ((node.colorAttr.getD SvgColor.black).split_alpha).1
  | some (AttributeValue.color c) => (c.split_alpha).1
  | _ => Color.white

/-- `strict_num::PositiveF64`: a finite float known to be nonnegative
(external crate; its documented invariant is `>= 0`). -/
abbrev PositiveF64 := { x : ℝ // 0 ≤ x }

/-- `PositiveF64::new`: accepts exactly the finite, nonnegative values
(external crate; over `ℝ` the finiteness condition is vacuous). -/
noncomputable def PositiveF64.new (n : ℝ) : Option PositiveF64 :=
if h : 0 ≤ n then some ⟨n, h⟩ else none

/-- A distant light source (`DistantLight`, `lighting.rs` lines 190-202). -/
structure DistantLight where
  azimuth : ℝ
  elevation : ℝ

/-- A point light source (`PointLight`, `lighting.rs` lines 214-230). -/
structure PointLight where
  x : ℝ
  y : ℝ
  z : ℝ

/-- A spot light source (`SpotLight`, `lighting.rs` lines 243-284). -/
structure SpotLight where
  x : ℝ
  y : ℝ
  z : ℝ
  points_at_x : ℝ
  points_at_y : ℝ
  points_at_z : ℝ
  specular_exponent : PositiveF64
  limiting_cone_angle : Option ℝ

/-- A light source kind (`LightSource`, `lighting.rs` lines 148-153). -/
inductive LightSource
  | distantLight (l : DistantLight)
  | pointLight (l : PointLight)
  | spotLight (l : SpotLight)

/-- Modelled from the spec: the abstract input reference descriptor returned by
input resolution (spec section 4.6) — a predefined source tag, a named prior
result, or the previous primitive's output. -/
inductive Input
  | sourceGraphic
  | sourceAlpha
  | reference (s : String)
  | previousOutput
  deriving DecidableEq

/-- Modelled from the spec: a previously converted primitive, of which input
resolution consults only the result name (spec section 4.6). -/
structure Primitive where
  result : String

/-- Modelled from the spec: `super::resolve_input`, the external input
resolution collaborator (spec section 4.6) — it returns a predefined source
tag, a named prior result when the name matches one, or the previous
primitive's output; the lighting converter only stores the returned tag. -/
def resolve_input (fe : LNode) (_aid : AId) (primitives : List Primitive) : Input :=
  match fe.inAttr with
  | none => Input.previousOutput
  | some s =>
    if s = "SourceGraphic" then Input.sourceGraphic
    else if s = "SourceAlpha" then Input.sourceAlpha
    else if primitives.any (fun p => p.result = s) then Input.reference s
    else Input.previousOutput

/-- A diffuse lighting filter primitive (`DiffuseLighting`, `lighting.rs`
lines 17-40). -/
structure DiffuseLighting where
  input : Input
  surface_scale : ℝ
  diffuse_constant : ℝ
  lighting_color : Color
  light_source : LightSource

/-- A specular lighting filter primitive (`SpecularLighting`, `lighting.rs`
lines 67-97). -/
structure SpecularLighting where
  input : Input
  surface_scale : ℝ
  specular_constant : ℝ
  specular_exponent : ℝ
  lighting_color : Color
  light_source : LightSource

/-- The filter primitive kinds produced by this module (`super::Kind`,
restricted to the two lighting variants it constructs). -/
inductive Kind
  | diffuseLighting (d : DiffuseLighting)
  | specularLighting (s : SpecularLighting)

/-- The predicate of the `children().find` call in `convert_light_source`
(`lighting.rs` lines 301-306). -/
def isLightElement (n : ChildNode) : Bool :=
  match n.tag with
  | some EId.feDistantLight => true
  | some EId.fePointLight => true
  | some EId.feSpotLight => true
  | _ => false

/-- The tag dispatch of `convert_light_source` (`lighting.rs` lines 308-335):
the match on the found child's tag name. -/
noncomputable def convert_light_child (child : ChildNode) : Option LightSource :=
  match child.tag with
    | some EId.feDistantLight =>
      some (LightSource.distantLight (DistantLight.mk
        ((child.attr AId.azimuth).getD 0)
        ((child.attr AId.elevation).getD 0)))
    | some EId.fePointLight =>
      some (LightSource.pointLight (PointLight.mk
        ((child.attr AId.x).getD 0)
        ((child.attr AId.y).getD 0)
        ((child.attr AId.z).getD 0)))
    | some EId.feSpotLight =>
      some (LightSource.spotLight (SpotLight.mk
        ((child.attr AId.x).getD 0)
        ((child.attr AId.y).getD 0)
        ((child.attr AId.z).getD 0)
        ((child.attr AId.pointsAtX).getD 0)
        ((child.attr AId.pointsAtY).getD 0)
        ((child.attr AId.pointsAtZ).getD 0)
        ((PositiveF64.new ((child.attr AId.specularExponent).getD 1)).getD ⟨1, zero_le_one⟩)
        (child.attr AId.limitingConeAngle)))
    | _ => none

/-- `convert_light_source` (`lighting.rs` lines 299-336): find the first
light-tagged child (the `?` early return is `Option.bind`) and dispatch on
its tag. -/
noncomputable def convert_light_source (parent : LNode) : Option LightSource :=
  (parent.children.find? isLightElement).bind convert_light_child

/-- `convert_diffuse` (`lighting.rs` lines 52-61); the `?` early return on
the light source is `Option.map`. -/
noncomputable def convert_diffuse (fe : LNode) (primitives : List Primitive) :
    Option Kind :=
  (convert_light_source fe).map (fun light_source =>
    Kind.diffuseLighting (DiffuseLighting.mk
      (resolve_input fe AId.inputAttr primitives)
      ((fe.attr AId.surfaceScale).getD 1)
      ((fe.attr AId.diffuseConstant).getD 1)
      (convert_lighting_color fe)
      light_source))

/-- Modelled from the spec: `crate::utils::f64_bound`, the clamp helper of
spec section 4.4 ("additionally clamped to the range before storage"). -/
noncomputable def f64_bound (lo v hi : ℝ) : ℝ :=
min (max v lo) hi

/-- The body of `convert_specular` after the light source is resolved
(`lighting.rs` lines 113-128); the Rust `let specular_exponent` bindings are
inlined. -/
noncomputable def specular_from (fe : LNode) (primitives : List Primitive)
    (light_source : LightSource) : Option Kind :=
  if ¬(1 ≤ (fe.attr AId.specularExponent).getD 1 ∧
      (fe.attr AId.specularExponent).getD 1 ≤ 128) then none
  else
    some (Kind.specularLighting (SpecularLighting.mk
      (resolve_input fe AId.inputAttr primitives)
      ((fe.attr AId.surfaceScale).getD 1)
      ((fe.attr AId.specularConstant).getD 1)
      (f64_bound 1 ((fe.attr AId.specularExponent).getD 1) 128)
      (convert_lighting_color fe)
      light_source))

/-- `convert_specular` (`lighting.rs` lines 110-129); the `?` early return on
the light source is `Option.bind`. -/
noncomputable def convert_specular (fe : LNode) (primitives : List Primitive) :
    Option Kind :=
  (convert_light_source fe).bind (specular_from fe primitives)

/-- A screen rectangle (`ScreenRect`): integer origin and size. -/
structure ScreenRect where
  x : ℤ
  y : ℤ
  width : ℕ
  height : ℕ
  deriving DecidableEq

/-- Modelled from the spec: the affine `Transform` of the `usvgr` geometry
module, with diagonal scale components `a` and `d` (spec section 4.5). -/
structure Transform where
  a : ℝ
  b : ℝ
  c : ℝ
  d : ℝ
  e : ℝ
  f : ℝ

/-- Modelled from the spec: `Transform::apply` maps a point through the
affine transform (spec section 4.5 "map `(x,y)` through `activeTransform`"). -/
def Transform.apply (ts : Transform) (x y : ℝ) : ℝ × ℝ :=
(ts.a * x + ts.c * y + ts.e, ts.b * x + ts.d * y + ts.f)

/-- `LightSource::transform` (`lighting.rs` lines 157-184). -/
noncomputable def LightSource.transform (self : LightSource) (region : ScreenRect)
    (ts : Transform) : LightSource :=
  match self with
  | LightSource.distantLight l => LightSource.distantLight l
  | LightSource.pointLight light =>
    let p := ts.apply light.x light.y
    LightSource.pointLight (PointLight.mk
      (p.1 - (region.x : ℝ))
      (p.2 - (region.y : ℝ))
      (light.z * Real.sqrt (ts.a * ts.a + ts.d * ts.d) / Real.sqrt 2))
  | LightSource.spotLight light =>
    let sz := Real.sqrt (ts.a * ts.a + ts.d * ts.d) / Real.sqrt 2
    let p := ts.apply light.x light.y
    let q := ts.apply light.points_at_x light.points_at_y
    LightSource.spotLight (SpotLight.mk
      (p.1 - (region.x : ℝ))
      (p.2 - (region.x : ℝ))
      (light.z * sz)
      (q.1 - (region.x : ℝ))
      (q.2 - (region.x : ℝ))
      (light.points_at_z * sz)
      light.specular_exponent
      light.limiting_cone_angle)

end usvgr

/-- A concrete spot-light child with no attributes set. -/
def lightChildSpot : usvgr.ChildNode :=
usvgr.ChildNode.mk (some usvgr.EId.feSpotLight) (fun _ => none)

/-- A concrete lighting primitive node whose numeric attributes are all 128
and whose only child is a spot light. -/
noncomputable def specNode128 : usvgr.LNode :=
usvgr.LNode.mk (fun _ => some 128) none none none [lightChildSpot]

/-- A concrete spot-light child whose `specularExponent` attribute is `0`. -/
noncomputable def spotZeroChild : usvgr.ChildNode :=
usvgr.ChildNode.mk (some usvgr.EId.feSpotLight)
  (fun a => if a = usvgr.AId.specularExponent then some 0 else none)

/-- A concrete lighting primitive node whose only child is `spotZeroChild`. -/
noncomputable def spotZeroNode : usvgr.LNode :=
usvgr.LNode.mk (fun _ => none) none none none [spotZeroChild]

/-- A concrete lighting primitive node with no children at all. -/
def childlessNode : usvgr.LNode :=
usvgr.LNode.mk (fun _ => none) none none none []

/-!
Helper lemmas.
-/

/-- The per-channel computation never saturates: for byte inputs it is exactly
the floor of `c * (a / 255) + 1/2`. -/
theorem premultChannel_eq_floor (c a : ℕ) (hc : c ≤ 255) (ha : a ≤ 255) :
    usvg.premultChannel c a = (⌊(c : ℚ) * ((a : ℚ) / 255) + 1 / 2⌋).toNat := by
  have h0 : (0 : ℚ) ≤ (c : ℚ) * ((a : ℚ) / 255) + 1 / 2 := by positivity
  have ha1 : ((a : ℚ) / 255) ≤ 1 := by
    rw [div_le_one (by norm_num)]
    exact_mod_cast ha
  have hc255 : (c : ℚ) ≤ 255 := by exact_mod_cast hc
  have hmul : (c : ℚ) * ((a : ℚ) / 255) ≤ 255 * 1 :=
    mul_le_mul hc255 ha1 (by positivity) (by norm_num)
  have hub : (c : ℚ) * ((a : ℚ) / 255) + 1 / 2 ≤ 511 / 2 := by linarith
  have hfloor : ⌊(c : ℚ) * ((a : ℚ) / 255) + 1 / 2⌋ ≤ 255 := by
    have h2 : ⌊(c : ℚ) * ((a : ℚ) / 255) + 1 / 2⌋ < 256 :=
      Int.floor_lt.mpr (by push_cast; linarith)
    omega
  unfold usvg.premultChannel usvg.castF32ToU8
  rw [if_neg (not_lt.mpr h0)]
  exact Nat.min_eq_right (Int.toNat_le.mpr hfloor)

/-- The per-channel computation in executable form: natural-number division
after scaling by 2 times 255. -/
theorem premultChannel_eq_natDiv (c a : ℕ) :
    usvg.premultChannel c a = min 255 ((2 * c * a + 255) / 510) := by
  unfold usvg.premultChannel usvg.castF32ToU8
  have h0 : (0 : ℚ) ≤ (c : ℚ) * ((a : ℚ) / 255) + 1 / 2 := by positivity
  rw [if_neg (not_lt.mpr h0)]
  have hq : (c : ℚ) * ((a : ℚ) / 255) + 1 / 2 =
      ((2 * c * a + 255 : ℕ) : ℚ) / ((510 : ℕ) : ℚ) := by
    push_cast
    field_simp
    ring
  rw [hq, Rat.floor_natCast_div_natCast, ← Int.natCast_div, Int.toNat_natCast]

/-- Totality of the premultiplication loop on buffers whose length is a
multiple of four, by fuel induction on the length bound. -/
theorem premultiplyData_total (fuel : ℕ) :
    ∀ l : List ℕ, l.length ≤ fuel → 4 ∣ l.length →
      ∃ d, usvg.premultiplyData l = some d ∧ d.length = l.length := by
  induction fuel with
  | zero =>
    intro l hl _
    have : l = [] := List.eq_nil_of_length_eq_zero (Nat.le_zero.mp hl)
    subst this
    exact ⟨[], rfl, rfl⟩
  | succ fuel ih =>
    intro l hl hdvd
    match l with
    | [] => exact ⟨[], rfl, rfl⟩
    | [r] => simp at hdvd
    | [r, g] => simp at hdvd; omega
    | [r, g, b] => simp at hdvd; omega
    | r :: g :: b :: a :: rest =>
      simp only [List.length_cons] at hl hdvd
      obtain ⟨d, hd, hlen⟩ := ih rest (by omega) (by omega)
      refine ⟨usvg.premultChannel r a :: usvg.premultChannel g a ::
        usvg.premultChannel b a :: a :: d, ?_, ?_⟩
      · simp [usvg.premultiplyData, hd]
      · simp [hlen]

/-!
Claim theorems.
-/

/-- C1: premultiplication maps each 4-byte pixel `(r,g,b,a)` to
`floor(c * (a/255) + 0.5)` on each color channel (round half up), leaves the
alpha byte unchanged, sends `(255,128,0,128)` to `(128,64,0,128)`, is the
identity on color channels at `a = 255`, and zeroes them at `a = 0`. -/
theorem premultiply_round_half_up :
    (∀ width height rgba_data,
      usvg.PreloadedImageData.new width height rgba_data =
        (usvg.premultiplyData rgba_data).map
          (fun d => usvg.PreloadedImageData.mk d width height))
    ∧ (∀ r g b a rest, r ≤ 255 → g ≤ 255 → b ≤ 255 → a ≤ 255 →
        usvg.premultiplyData (r :: g :: b :: a :: rest) =
          (usvg.premultiplyData rest).map (fun t =>
            (⌊(r : ℚ) * ((a : ℚ) / 255) + 1 / 2⌋).toNat ::
            (⌊(g : ℚ) * ((a : ℚ) / 255) + 1 / 2⌋).toNat ::
            (⌊(b : ℚ) * ((a : ℚ) / 255) + 1 / 2⌋).toNat :: a :: t))
    ∧ usvg.premultiplyData [255, 128, 0, 128] = some [128, 64, 0, 128]
    ∧ (∀ r, r ≤ 255 → usvg.premultChannel r 255 = r)
    ∧ (∀ r, usvg.premultChannel r 0 = 0) := by
  have hhalf : ⌊(1 / 2 : ℚ)⌋ = 0 := by
    rw [Int.floor_eq_zero_iff]
    constructor <;> norm_num
  refine ⟨fun _ _ _ => rfl, ?_, ?_, ?_, ?_⟩
  · intro r g b a rest hr hg hb ha
    simp only [usvg.premultiplyData]
    simp only [premultChannel_eq_floor r a hr ha, premultChannel_eq_floor g a hg ha,
      premultChannel_eq_floor b a hb ha]
  · simp only [usvg.premultiplyData, premultChannel_eq_natDiv]
    decide
  · intro r hr
    rw [premultChannel_eq_floor r 255 hr (le_refl 255)]
    have h255 : (((255 : ℕ) : ℚ) / 255) = 1 := by norm_num
    rw [h255, mul_one]
    have hcast : ((r : ℚ) + 1 / 2) = ((r : ℤ) : ℚ) + 1 / 2 := by push_cast; ring
    rw [hcast, Int.floor_int_add, hhalf, add_zero, Int.toNat_natCast]
  · intro r
    have hzero : ((r : ℚ) * (((0 : ℕ) : ℚ) / 255) + 1 / 2) = 1 / 2 := by
      push_cast; ring
    unfold usvg.premultChannel usvg.castF32ToU8
    rw [hzero, if_neg (by norm_num), hhalf]
    rfl

/-- C1 witness: the pixel map instantiated at a concrete chunk and the
identity-at-full-alpha fact at a concrete channel value. -/
theorem premultiply_round_half_up_witness :
    usvg.premultiplyData (1 :: 2 :: 3 :: 4 :: []) =
      (usvg.premultiplyData []).map (fun t =>
        (⌊((1 : ℕ) : ℚ) * (((4 : ℕ) : ℚ) / 255) + 1 / 2⌋).toNat ::
        (⌊((2 : ℕ) : ℚ) * (((4 : ℕ) : ℚ) / 255) + 1 / 2⌋).toNat ::
        (⌊((3 : ℕ) : ℚ) * (((4 : ℕ) : ℚ) / 255) + 1 / 2⌋).toNat :: 4 :: t)
    ∧ usvg.premultChannel 200 255 = 200 :=
  ⟨premultiply_round_half_up.2.1 1 2 3 4 [] (by decide) (by decide) (by decide) (by decide),
   premultiply_round_half_up.2.2.2.1 200 (by decide)⟩

/-- C6 counterexample: an input of 8 bytes with `width = height = 1` violates
the `len = width * height * 4` precondition, yet `PreloadedImageData::new`
proceeds and returns a premultiplied buffer — no `InvalidBufferLength` error
exists in the code. -/
theorem premultiply_no_length_check_cex :
    usvg.PreloadedImageData.new 1 1 [10, 20, 30, 40, 50, 60, 70, 80] =
      some (usvg.PreloadedImageData.mk [2, 3, 5, 40, 16, 19, 22, 80] 1 1) ∧
    ([10, 20, 30, 40, 50, 60, 70, 80] : List ℕ).length ≠ 1 * 1 * 4 := by
  constructor
  · show (usvg.premultiplyData _).map _ = _
    simp only [usvg.premultiplyData, premultChannel_eq_natDiv]
    decide
  · decide

/-- C6 (amended): `PreloadedImageData::new` performs no check relating the
input length to `width * height * 4`; any buffer whose length is a multiple
of four is premultiplied and returned even when that relation fails. -/
theorem premultiply_proceeds_on_length_mismatch :
    ∀ (width height : ℕ) (rgba_data : List ℕ), 4 ∣ rgba_data.length →
      rgba_data.length ≠ width * height * 4 →
      ∃ img, usvg.PreloadedImageData.new width height rgba_data = some img ∧
        img.data.length = rgba_data.length := by
  intro w h l hdvd _
  obtain ⟨d, hd, hlen⟩ := premultiplyData_total l.length l (le_refl _) hdvd
  refine ⟨usvg.PreloadedImageData.mk d w h, ?_, ?_⟩
  · simp [usvg.PreloadedImageData.new, hd]
  · simpa using hlen

/-- C6 amended witness at the 8-byte buffer with 1x1 dimensions. -/
theorem premultiply_proceeds_on_length_mismatch_witness :
    ∃ img, usvg.PreloadedImageData.new 1 1 [10, 20, 30, 40, 50, 60, 70, 80] = some img ∧
      img.data.length = ([10, 20, 30, 40, 50, 60, 70, 80] : List ℕ).length :=
  premultiply_proceeds_on_length_mismatch 1 1 _ (by decide) (by decide)

/-- C10: on any buffer whose length is a multiple of four, the
premultiplication loop is total, preserves the buffer length, and
`PreloadedImageData::new` stores the given `width` and `height` without any
check relating them to the buffer length. -/
theorem premultiply_total_stores_unchecked :
    ∀ (width height : ℕ) (rgba_data : List ℕ), 4 ∣ rgba_data.length →
      ∃ d, usvg.premultiplyData rgba_data = some d ∧
        d.length = rgba_data.length ∧
        usvg.PreloadedImageData.new width height rgba_data =
          some (usvg.PreloadedImageData.mk d width height) := by
  intro w h l hdvd
  obtain ⟨d, hd, hlen⟩ := premultiplyData_total l.length l (le_refl _) hdvd
  exact ⟨d, hd, hlen, by simp [usvg.PreloadedImageData.new, hd]⟩

/-- C2: for spot lights, `LightSource::transform` subtracts the region's
X-origin from the transformed Y coordinate (the documented quirk), both for
the light position and for the points-at position, while the transformed X
coordinates also subtract the X-origin; when the region's X- and Y-origins
differ, the stored Y coordinate therefore differs from the value a Y-origin
subtraction would give. -/
theorem spot_light_transform_y_uses_region_x :
    ∀ (l : usvgr.SpotLight) (region : usvgr.ScreenRect) (ts : usvgr.Transform),
      usvgr.LightSource.transform (usvgr.LightSource.spotLight l) region ts =
        usvgr.LightSource.spotLight (usvgr.SpotLight.mk
          ((ts.apply l.x l.y).1 - (region.x : ℝ))
          ((ts.apply l.x l.y).2 - (region.x : ℝ))
          (l.z * (Real.sqrt (ts.a * ts.a + ts.d * ts.d) / Real.sqrt 2))
          ((ts.apply l.points_at_x l.points_at_y).1 - (region.x : ℝ))
          ((ts.apply l.points_at_x l.points_at_y).2 - (region.x : ℝ))
          (l.points_at_z * (Real.sqrt (ts.a * ts.a + ts.d * ts.d) / Real.sqrt 2))
          l.specular_exponent
          l.limiting_cone_angle)
      ∧ (((region.x : ℝ) ≠ (region.y : ℝ)) →
          (ts.apply l.x l.y).2 - (region.x : ℝ) ≠ (ts.apply l.x l.y).2 - (region.y : ℝ)) := by
  intro l region ts
  refine ⟨rfl, ?_⟩
  intro hxy h
  apply hxy
  linarith

/-- C2 witness: the identity transform on a concrete spot light with region
origin `(7, 9)`. -/
theorem spot_light_transform_y_uses_region_x_witness :
    usvgr.LightSource.transform
        (usvgr.LightSource.spotLight
          (usvgr.SpotLight.mk 1 2 3 4 5 6 ⟨1, zero_le_one⟩ none))
        (usvgr.ScreenRect.mk 7 9 5 5) (usvgr.Transform.mk 1 0 0 1 0 0) =
      usvgr.LightSource.spotLight
        (usvgr.SpotLight.mk (-6) (-5) 3 (-3) (-2) 6 ⟨1, zero_le_one⟩ none) := by
  have h := (spot_light_transform_y_uses_region_x
    (usvgr.SpotLight.mk 1 2 3 4 5 6 ⟨1, zero_le_one⟩ none)
    (usvgr.ScreenRect.mk 7 9 5 5) (usvgr.Transform.mk 1 0 0 1 0 0)).1
  rw [h]
  have hs : Real.sqrt ((1 : ℝ) * 1 + 1 * 1) / Real.sqrt 2 = 1 := by
    rw [show ((1 : ℝ) * 1 + 1 * 1) = 2 by norm_num]
    exact div_self (Real.sqrt_ne_zero'.mpr (by norm_num))
  simp only [usvgr.Transform.apply, hs]
  norm_num

/-- C5: for point lights, `LightSource::transform` maps `(x, y)` through the
active transform, subtracts the region's X-origin from x and its Y-origin
from y, and scales z by `sqrt(a^2 + d^2) / sqrt 2`; a point light at
`(10, 10, 5)` with region origin `(2, 2)` and diagonal transform `a = d = 2`
lands at `(18, 18)` with `z = 10`. -/
theorem point_light_transform_maps_and_scales :
    (∀ (l : usvgr.PointLight) (region : usvgr.ScreenRect) (ts : usvgr.Transform),
      usvgr.LightSource.transform (usvgr.LightSource.pointLight l) region ts =
        usvgr.LightSource.pointLight (usvgr.PointLight.mk
          ((ts.apply l.x l.y).1 - (region.x : ℝ))
          ((ts.apply l.x l.y).2 - (region.y : ℝ))
          (l.z * Real.sqrt (ts.a * ts.a + ts.d * ts.d) / Real.sqrt 2)))
    ∧ usvgr.LightSource.transform
        (usvgr.LightSource.pointLight (usvgr.PointLight.mk 10 10 5))
        (usvgr.ScreenRect.mk 2 2 10 10) (usvgr.Transform.mk 2 0 0 2 0 0) =
      usvgr.LightSource.pointLight (usvgr.PointLight.mk 18 18 10) := by
  refine ⟨fun l region ts => rfl, ?_⟩
  have h : usvgr.LightSource.transform
      (usvgr.LightSource.pointLight (usvgr.PointLight.mk 10 10 5))
      (usvgr.ScreenRect.mk 2 2 10 10) (usvgr.Transform.mk 2 0 0 2 0 0) =
      usvgr.LightSource.pointLight (usvgr.PointLight.mk
        (((usvgr.Transform.mk 2 0 0 2 0 0).apply 10 10).1 - ((2 : ℤ) : ℝ))
        (((usvgr.Transform.mk 2 0 0 2 0 0).apply 10 10).2 - ((2 : ℤ) : ℝ))
        (5 * Real.sqrt ((2 : ℝ) * 2 + 2 * 2) / Real.sqrt 2)) := rfl
  rw [h]
  have h4 : Real.sqrt ((2 : ℝ) * 2 + 2 * 2) = 2 * Real.sqrt 2 := by
    rw [show ((2 : ℝ) * 2 + 2 * 2) = 2 ^ 2 * 2 by norm_num,
      Real.sqrt_mul (by positivity), Real.sqrt_sq (by norm_num)]
  have hz : (5 : ℝ) * Real.sqrt ((2 : ℝ) * 2 + 2 * 2) / Real.sqrt 2 = 10 := by
    rw [h4, show (5 : ℝ) * (2 * Real.sqrt 2) = 10 * Real.sqrt 2 by ring,
      mul_div_assoc, div_self (Real.sqrt_ne_zero'.mpr (by norm_num)), mul_one]
  rw [hz]
  simp only [usvgr.Transform.apply]
  norm_num

/-- C10 witness: a 4-byte buffer with unrelated dimensions 3 by 7. -/
theorem premultiply_total_stores_unchecked_witness :
    ∃ d, usvg.premultiplyData [1, 2, 3, 4] = some d ∧
      d.length = ([1, 2, 3, 4] : List ℕ).length ∧
      usvg.PreloadedImageData.new 3 7 [1, 2, 3, 4] =
        some (usvg.PreloadedImageData.mk d 3 7) :=
  premultiply_total_stores_unchecked 3 7 [1, 2, 3, 4] (by decide)

/-- A lighting primitive node with a light-tagged child always yields a
resolved light source. -/
theorem convert_light_source_isSome (parent : usvgr.LNode)
    (h : ∃ c ∈ parent.children, usvgr.isLightElement c) :
    ∃ ls, usvgr.convert_light_source parent = some ls := by
  have hfind : (parent.children.find? usvgr.isLightElement).isSome := by
    rw [List.find?_isSome]
    exact h
  obtain ⟨child, hc⟩ := Option.isSome_iff_exists.mp hfind
  have hlc : usvgr.isLightElement child := List.find?_some hc
  unfold usvgr.convert_light_source
  rw [hc, Option.some_bind]
  unfold usvgr.convert_light_child
  cases htag : child.tag with
  | none => simp [usvgr.isLightElement, htag] at hlc
  | some e =>
    cases e with
    | feDistantLight => exact ⟨_, rfl⟩
    | fePointLight => exact ⟨_, rfl⟩
    | feSpotLight => exact ⟨_, rfl⟩
    | feOther => simp [usvgr.isLightElement, htag] at hlc

/-- C3: for a node with a light child, `convert_specular` yields no value
exactly when the `specularExponent` attribute value (default `1.0`) falls
outside `[1, 128]`; when it yields a primitive, the stored
`specular_exponent` is the clamp of that value to `[1, 128]` (a second,
distinct step), equals the attribute value, and lies within `[1, 128]`. -/
theorem convert_specular_exponent_range :
    ∀ (fe : usvgr.LNode) (primitives : List usvgr.Primitive),
      (∃ c ∈ fe.children, usvgr.isLightElement c) →
      ((usvgr.convert_specular fe primitives = none ↔
        ((fe.attr usvgr.AId.specularExponent).getD 1 < 1 ∨
          128 < (fe.attr usvgr.AId.specularExponent).getD 1))
      ∧ ∀ k, usvgr.convert_specular fe primitives = some k →
          ∃ s, k = usvgr.Kind.specularLighting s ∧
            s.specular_exponent =
              usvgr.f64_bound 1 ((fe.attr usvgr.AId.specularExponent).getD 1) 128 ∧
            s.specular_exponent = (fe.attr usvgr.AId.specularExponent).getD 1 ∧
            1 ≤ s.specular_exponent ∧ s.specular_exponent ≤ 128) := by
  intro fe prims hlight
  obtain ⟨ls, hls⟩ := convert_light_source_isSome fe hlight
  set e := (fe.attr usvgr.AId.specularExponent).getD 1 with he
  unfold usvgr.convert_specular
  rw [hls, Option.some_bind]
  unfold usvgr.specular_from
  rw [← he]
  by_cases hrange : 1 ≤ e ∧ e ≤ 128
  · rw [if_neg (not_not_intro hrange)]
    constructor
    · constructor
      · intro hcontra
        exact absurd hcontra (by simp)
      · rintro (h | h)
        · linarith [hrange.1]
        · linarith [hrange.2]
    · intro k hk
      have hkeq : usvgr.Kind.specularLighting (usvgr.SpecularLighting.mk
          (usvgr.resolve_input fe usvgr.AId.inputAttr prims)
          ((fe.attr usvgr.AId.surfaceScale).getD 1)
          ((fe.attr usvgr.AId.specularConstant).getD 1)
          (usvgr.f64_bound 1 e 128)
          (usvgr.convert_lighting_color fe)
          ls) = k := by
        exact Option.some_injective _ hk
      refine ⟨_, hkeq.symm, rfl, ?_, ?_, ?_⟩
      · show usvgr.f64_bound 1 e 128 = e
        unfold usvgr.f64_bound
        rw [max_eq_left hrange.1, min_eq_left hrange.2]
      · show (1 : ℝ) ≤ usvgr.f64_bound 1 e 128
        unfold usvgr.f64_bound
        rw [max_eq_left hrange.1, min_eq_left hrange.2]
        exact hrange.1
      · show usvgr.f64_bound 1 e 128 ≤ 128
        unfold usvgr.f64_bound
        exact min_le_right _ _
  · rw [if_pos hrange]
    constructor
    · constructor
      · intro _
        rcases not_and_or.mp hrange with h | h
        · exact Or.inl (not_le.mp h)
        · exact Or.inr (not_le.mp h)
      · intro _
        rfl
    · intro k hk
      exact absurd hk (by simp)

/-- C3 witness: attribute value 128 is accepted and stored exactly as 128. -/
theorem convert_specular_exponent_range_witness :
    ((usvgr.convert_specular specNode128 [] = none ↔
        ((128 : ℝ) < 1 ∨ (128 : ℝ) > 128))
      ∧ ∀ k, usvgr.convert_specular specNode128 [] = some k →
          ∃ s, k = usvgr.Kind.specularLighting s ∧
            s.specular_exponent = usvgr.f64_bound 1 128 128 ∧
            s.specular_exponent = 128 ∧
            1 ≤ s.specular_exponent ∧ s.specular_exponent ≤ 128) :=
  convert_specular_exponent_range specNode128 []
    ⟨lightChildSpot, List.mem_singleton.mpr rfl, rfl⟩

/-- C4 counterexample: the spot light attribute `specularExponent = 0` is
non-positive, yet `convert_light_source` stores it as `0` rather than
replacing it with `1.0` — `PositiveF64::new` accepts every finite
nonnegative value, including zero. -/
theorem spot_specular_exponent_zero_not_replaced :
    ∃ sl, usvgr.convert_light_source spotZeroNode =
        some (usvgr.LightSource.spotLight sl) ∧
      (sl.specular_exponent : ℝ) = 0 ∧ ¬((sl.specular_exponent : ℝ) = 1) := by
  have hnew : usvgr.PositiveF64.new 0 = some ⟨0, le_refl 0⟩ := by
    unfold usvgr.PositiveF64.new
    rw [dif_pos (le_refl (0 : ℝ))]
  refine ⟨usvgr.SpotLight.mk 0 0 0 0 0 0 ⟨0, le_refl 0⟩ none, ?_, rfl, by norm_num⟩
  unfold usvgr.convert_light_source
  have hfind : spotZeroNode.children.find? usvgr.isLightElement =
      some spotZeroChild := rfl
  rw [hfind, Option.some_bind]
  unfold usvgr.convert_light_child
  show (match spotZeroChild.tag with
    | some usvgr.EId.feDistantLight => some (usvgr.LightSource.distantLight
        (usvgr.DistantLight.mk ((spotZeroChild.attr usvgr.AId.azimuth).getD 0)
          ((spotZeroChild.attr usvgr.AId.elevation).getD 0)))
    | some usvgr.EId.fePointLight => some (usvgr.LightSource.pointLight
        (usvgr.PointLight.mk ((spotZeroChild.attr usvgr.AId.x).getD 0)
          ((spotZeroChild.attr usvgr.AId.y).getD 0)
          ((spotZeroChild.attr usvgr.AId.z).getD 0)))
    | some usvgr.EId.feSpotLight => some (usvgr.LightSource.spotLight
        (usvgr.SpotLight.mk ((spotZeroChild.attr usvgr.AId.x).getD 0)
          ((spotZeroChild.attr usvgr.AId.y).getD 0)
          ((spotZeroChild.attr usvgr.AId.z).getD 0)
          ((spotZeroChild.attr usvgr.AId.pointsAtX).getD 0)
          ((spotZeroChild.attr usvgr.AId.pointsAtY).getD 0)
          ((spotZeroChild.attr usvgr.AId.pointsAtZ).getD 0)
          ((usvgr.PositiveF64.new
            ((spotZeroChild.attr usvgr.AId.specularExponent).getD 1)).getD
              ⟨1, zero_le_one⟩)
          (spotZeroChild.attr usvgr.AId.limitingConeAngle)))
    | _ => none) = some (usvgr.LightSource.spotLight
      (usvgr.SpotLight.mk 0 0 0 0 0 0 ⟨0, le_refl 0⟩ none))
  show some _ = some _
  rw [show (spotZeroChild.attr usvgr.AId.specularExponent).getD 1 = 0 from rfl, hnew]
  rfl

/-- C4 (amended): for a resolved spot light, `specular_exponent` is `1.0`
when the attribute is absent, any negative (or non-finite) value is replaced
with `1.0`, the stored quantity is always nonnegative, and
`limiting_cone_angle` is stored exactly as the optional `limitingConeAngle`
attribute, hence absent when the attribute is absent. -/
theorem spot_light_defaults :
    ∀ (parent : usvgr.LNode) (child : usvgr.ChildNode),
      parent.children.find? usvgr.isLightElement = some child →
      child.tag = some usvgr.EId.feSpotLight →
      ∃ sl, usvgr.convert_light_source parent =
          some (usvgr.LightSource.spotLight sl) ∧
        ((sl.specular_exponent : ℝ) =
          if 0 ≤ (child.attr usvgr.AId.specularExponent).getD 1
          then (child.attr usvgr.AId.specularExponent).getD 1 else 1) ∧
        0 ≤ (sl.specular_exponent : ℝ) ∧
        (child.attr usvgr.AId.specularExponent = none →
          (sl.specular_exponent : ℝ) = 1) ∧
        sl.limiting_cone_angle = child.attr usvgr.AId.limitingConeAngle := by
  intro parent child hfind htag
  unfold usvgr.convert_light_source
  rw [hfind, Option.some_bind]
  unfold usvgr.convert_light_child
  rw [htag]
  refine ⟨_, rfl, ?_, ?_, ?_, rfl⟩
  · show (((usvgr.PositiveF64.new
        ((child.attr usvgr.AId.specularExponent).getD 1)).getD ⟨1, zero_le_one⟩ :
          usvgr.PositiveF64) : ℝ) = _
    unfold usvgr.PositiveF64.new
    by_cases h : 0 ≤ (child.attr usvgr.AId.specularExponent).getD 1
    · rw [dif_pos h, if_pos h]
      rfl
    · rw [dif_neg h, if_neg h]
      rfl
  · exact ((usvgr.PositiveF64.new
      ((child.attr usvgr.AId.specularExponent).getD 1)).getD ⟨1, zero_le_one⟩).2
  · intro hnone
    show (((usvgr.PositiveF64.new
        ((child.attr usvgr.AId.specularExponent).getD 1)).getD ⟨1, zero_le_one⟩ :
          usvgr.PositiveF64) : ℝ) = 1
    rw [hnone]
    show (((usvgr.PositiveF64.new 1).getD ⟨1, zero_le_one⟩ :
      usvgr.PositiveF64) : ℝ) = 1
    unfold usvgr.PositiveF64.new
    rw [dif_pos zero_le_one]
    rfl

/-- C4 amended witness: a spot light child with no attributes set stores
exponent 1 and no cone angle. -/
theorem spot_light_defaults_witness :
    ∃ sl, usvgr.convert_light_source
        (usvgr.LNode.mk (fun _ => none) none none none [lightChildSpot]) =
          some (usvgr.LightSource.spotLight sl) ∧
      ((sl.specular_exponent : ℝ) =
        if 0 ≤ (lightChildSpot.attr usvgr.AId.specularExponent).getD 1
        then (lightChildSpot.attr usvgr.AId.specularExponent).getD 1 else 1) ∧
      0 ≤ (sl.specular_exponent : ℝ) ∧
      (lightChildSpot.attr usvgr.AId.specularExponent = none →
        (sl.specular_exponent : ℝ) = 1) ∧
      sl.limiting_cone_angle = lightChildSpot.attr usvgr.AId.limitingConeAngle :=
  spot_light_defaults (usvgr.LNode.mk (fun _ => none) none none none [lightChildSpot])
    lightChildSpot rfl rfl

/-- C7: `convert_lighting_color` resolves the inheritance token to the
inherited `color` attribute (black when absent) with alpha stripped, an
explicit color with alpha stripped, and anything else to white; in
particular `currentColor` with inherited red gives opaque red, and an absent
attribute gives white. -/
theorem lighting_color_precedence :
    (∀ node : usvgr.LNode, node.lightingColor = some usvgr.AttributeValue.currentColor →
      usvgr.convert_lighting_color node =
        ((node.colorAttr.getD usvgr.SvgColor.black).split_alpha).1)
    ∧ (∀ (node : usvgr.LNode) (c : usvgr.SvgColor),
        node.lightingColor = some (usvgr.AttributeValue.color c) →
        usvgr.convert_lighting_color node = (c.split_alpha).1)
    ∧ (∀ node : usvgr.LNode,
        node.lightingColor = none ∨ node.lightingColor = some usvgr.AttributeValue.other →
        usvgr.convert_lighting_color node = usvgr.Color.white)
    ∧ usvgr.convert_lighting_color
        (usvgr.LNode.mk (fun _ => none) (some usvgr.AttributeValue.currentColor)
          (some (usvgr.SvgColor.mk 255 0 0 255)) none []) =
        usvgr.Color.mk 255 0 0
    ∧ usvgr.convert_lighting_color
        (usvgr.LNode.mk (fun _ => none) none none none []) = usvgr.Color.white := by
  refine ⟨?_, ?_, ?_, rfl, rfl⟩
  · intro node h
    unfold usvgr.convert_lighting_color
    rw [h]
  · intro node c h
    unfold usvgr.convert_lighting_color
    rw [h]
  · intro node h
    unfold usvgr.convert_lighting_color
    rcases h with h | h <;> rw [h]

/-- C7 witness: the three precedence branches instantiated at the concrete
inherited-red node. -/
theorem lighting_color_precedence_witness :
    usvgr.convert_lighting_color
        (usvgr.LNode.mk (fun _ => none) (some usvgr.AttributeValue.currentColor)
          (some (usvgr.SvgColor.mk 255 0 0 255)) none []) =
      (((some (usvgr.SvgColor.mk 255 0 0 255)).getD
        usvgr.SvgColor.black).split_alpha).1 :=
  lighting_color_precedence.1
    (usvgr.LNode.mk (fun _ => none) (some usvgr.AttributeValue.currentColor)
      (some (usvgr.SvgColor.mk 255 0 0 255)) none []) rfl

/-- C8: when a lighting primitive node has no light-tagged child, both
`convert_diffuse` and `convert_specular` yield no value — the whole
primitive is dropped. -/
theorem missing_light_child_drops_primitives :
    ∀ (fe : usvgr.LNode) (primitives : List usvgr.Primitive),
      (∀ c ∈ fe.children, usvgr.isLightElement c = false) →
      usvgr.convert_diffuse fe primitives = none ∧
        usvgr.convert_specular fe primitives = none := by
  intro fe prims h
  have hfind : fe.children.find? usvgr.isLightElement = none := by
    rw [List.find?_eq_none]
    intro x hx
    simp [h x hx]
  have hls : usvgr.convert_light_source fe = none := by
    unfold usvgr.convert_light_source
    rw [hfind]
    rfl
  constructor
  · unfold usvgr.convert_diffuse
    rw [hls]
    rfl
  · unfold usvgr.convert_specular
    rw [hls]
    rfl

/-- C8 witness: a childless node drops both primitives. -/
theorem missing_light_child_drops_primitives_witness :
    usvgr.convert_diffuse childlessNode [] = none ∧
      usvgr.convert_specular childlessNode [] = none :=
  missing_light_child_drops_primitives childlessNode []
    (by intro c hc; simp [childlessNode] at hc)

/-- C9: `image::convert` skips the element (returns no value, leaving the
parent unchanged) exactly when the rectangle from `x,y,width,height` (zero
defaults) is non-positive, the image reference is absent, or no buffer is
cached under it; on success it appends a fully-populated image element whose
transform is the default identity. -/
theorem image_convert_skip_and_success :
    ∀ (node : usvg.INode) (state : usvg.State) (parent : List usvg.NodeKind),
      ((usvg.convert node state parent).2 = none ↔
        (¬(0 < node.width.getD 0 ∧ 0 < node.height.getD 0) ∨ node.href = none ∨
          ∃ href, node.href = some href ∧ usvg.get_href_data href state.opt = none))
      ∧ ((usvg.convert node state parent).2 = none →
          (usvg.convert node state parent).1 = parent)
      ∧ (∀ href data, (0 < node.width.getD 0 ∧ 0 < node.height.getD 0) →
          node.href = some href → usvg.get_href_data href state.opt = some data →
          usvg.convert node state parent =
            (parent ++ [usvg.NodeKind.image (usvg.Image.mk node.elementId
              usvg.defaultTransform
              (node.visibility.getD usvg.Visibility.visible)
              (usvg.ViewBox.mk
                (usvg.Rect.mk (node.x.getD 0) (node.y.getD 0)
                  (node.width.getD 0) (node.height.getD 0))
                (node.aspect.getD usvg.AspectKind.defaultPolicy))
              (node.imageRendering.getD state.opt.image_rendering)
              data)], some ())) := by
  intro node state parent
  by_cases hwh : 0 < node.width.getD 0 ∧ 0 < node.height.getD 0
  · rcases hhref : node.href with _ | href
    · have hres : usvg.convert node state parent = (parent, none) := by
        simp [usvg.convert, usvg.Rect.new, hwh, hhref]
      refine ⟨?_, fun _ => by rw [hres], ?_⟩
      · rw [hres]
        exact ⟨fun _ => Or.inr (Or.inl rfl), fun _ => rfl⟩
      · intro href data _ h2 _
        exact absurd h2 (by simp)
    · rcases hdata : usvg.get_href_data href state.opt with _ | data
      · have hres : usvg.convert node state parent = (parent, none) := by
          simp [usvg.convert, usvg.Rect.new, hwh, hhref, hdata]
        refine ⟨?_, fun _ => by rw [hres], ?_⟩
        · rw [hres]
          exact ⟨fun _ => Or.inr (Or.inr ⟨href, rfl, hdata⟩), fun _ => rfl⟩
        · intro href' data' _ h2 h3
          have : href' = href := (Option.some_injective _ h2).symm
          subst this
          rw [hdata] at h3
          exact absurd h3 (by simp)
      · have hres : usvg.convert node state parent =
            (parent ++ [usvg.NodeKind.image (usvg.Image.mk node.elementId
              usvg.defaultTransform
              (node.visibility.getD usvg.Visibility.visible)
              (usvg.ViewBox.mk
                (usvg.Rect.mk (node.x.getD 0) (node.y.getD 0)
                  (node.width.getD 0) (node.height.getD 0))
                (node.aspect.getD usvg.AspectKind.defaultPolicy))
              (node.imageRendering.getD state.opt.image_rendering)
              data)], some ()) := by
          simp [usvg.convert, usvg.Rect.new, hwh, hhref, hdata]
        refine ⟨?_, ?_, ?_⟩
        · rw [hres]
          constructor
          · intro h
            exact absurd h (by simp)
          · rintro (h | h | ⟨href', hh', hd'⟩)
            · exact absurd hwh h
            · exact absurd h (by simp)
            · have : href' = href := (Option.some_injective _ hh').symm
              subst this
              rw [hdata] at hd'
              exact absurd hd' (by simp)
        · intro h
          rw [hres] at h
          exact absurd h (by simp)
        · intro href' data' _ h2 h3
          have : href' = href := (Option.some_injective _ h2).symm
          subst this
          rw [hdata] at h3
          have : data' = data := (Option.some_injective _ h3).symm
          subst this
          exact hres
  · have hres : usvg.convert node state parent = (parent, none) := by
      simp [usvg.convert, usvg.Rect.new, hwh]
    refine ⟨?_, fun _ => by rw [hres], ?_⟩
    · rw [hres]
      exact ⟨fun _ => Or.inl hwh, fun _ => rfl⟩
    · intro href data hwh2 _ _
      exact absurd hwh2 hwh

/-- C9 witness: a concrete image node with positive size and a cached buffer
is appended with the identity transform. -/
theorem image_convert_skip_and_success_witness :
    usvg.convert
        (usvg.INode.mk ("img1") none none none none (some 4) (some 3) none (some ("k")))
        (usvg.State.mk (usvg.OptionsRef.mk usvg.ImageRendering.optimizeQuality
          [("k", usvg.PreloadedImageData.mk [] 0 0)])) [] =
      ([usvg.NodeKind.image (usvg.Image.mk ("img1") usvg.defaultTransform
        usvg.Visibility.visible
        (usvg.ViewBox.mk (usvg.Rect.mk 0 0 4 3) usvg.AspectKind.defaultPolicy)
        usvg.ImageRendering.optimizeQuality
        (usvg.PreloadedImageData.mk [] 0 0))], some ()) := by
  have h := (image_convert_skip_and_success
    (usvg.INode.mk ("img1") none none none none (some 4) (some 3) none (some ("k")))
    (usvg.State.mk (usvg.OptionsRef.mk usvg.ImageRendering.optimizeQuality
      [("k", usvg.PreloadedImageData.mk [] 0 0)])) []).2.2 ("k")
    (usvg.PreloadedImageData.mk [] 0 0) ⟨by norm_num, by norm_num⟩ rfl rfl
  exact h
